import Mathlib

/-!
Verification of the real-time streaming transcription sessions of this
repository against their natural-language specification.

Shallow embedding, per source file:

* `SonioxRealtime` — `src/stream/soniox_realtime.py` (module-level
  `render_tokens` and the receive loop of `run_session`).
* `SonioxUi` — `src/ui/soniox_ui.py` (`TranscriptionSession`:
  `render_tokens`, `receive_messages`, `stop`).
* `Gcloud` — `src/stream/gcloud_stt_realtime.py` (`TranscriptionManager`:
  `_process_responses`, `_get_language_name`, lock usage,
  `get_current_transcript`).
* `SonioxMultilingual` — `src/stream/soniox_multilingual_stream.py`
  (`map_languages` and its tokenizer).

Python conventions used throughout the embedding:
* a dict field that may be absent is an `Option`; `d.get(k)` is the
  `Option` itself, `d[k]` is a fallible access (`Except`-style, a
  `KeyError` when absent);
* Python truthiness of an optional string (`None` and `""` are falsy) is
  `truthyStr`;
* `str.lstrip()` is `pyLstrip` (drops leading ASCII whitespace).
-/

/-- A recognition token as received from the backend, one JSON object of a
response's `tokens` list.  `text` is optional because a malformed token may
miss it (`token.get("text")` in the sources); the other fields are read
with `.get` and are genuinely optional. -/
structure Token where
  text : Option String := none
  is_final : Bool := false
  speaker : Option String := none
  language : Option String := none
  translation_status : Option String := none
deriving DecidableEq, Repr

/-- Python truthiness of an optional string: `None` and `""` are falsy. -/
def truthyStr : Option String → Bool
  | none => false
  | some s => !(s == "")

/-- Python whitespace for `str.lstrip()` (ASCII range): space, tab,
newline, carriage return, vertical tab, form feed. -/
def isPyWhitespace (c : Char) : Bool :=
  c = ' ' || c = '\t' || c = '\n' || c = '\r' || c = '\x0b' || c = '\x0c'

/-- Python `str.lstrip()`: drop leading whitespace. -/
def pyLstrip (s : String) : String :=
  ⟨s.data.dropWhile isPyWhitespace⟩

/-- Python `str.lower()`, lowering character by character (ASCII case
mapping, which covers the romanized dictionary keys the sources use). -/
def pyLower (s : String) : String :=
  ⟨s.data.map Char.toLower⟩

/-- One string appended to the `text_parts` list of a renderer; each
constructor corresponds to one `text_parts.append(...)` in the source, and
`partStr` below gives the exact string appended. -/
inductive RPart where
  | paraBreak : RPart
  | speakerTag (s : String) : RPart
  | langTag (isTranslation : Bool) (lang : String) : RPart
  | text (t : String) : RPart
deriving DecidableEq, Repr

/-- Classifier for speaker-boundary labels among the appended parts. -/
def RPart.isSpeakerTag : RPart → Bool
  | RPart.speakerTag _ => true
  | _ => false

/-- Classifier for inline language tags among the appended parts. -/
def RPart.isLangTag : RPart → Bool
  | RPart.langTag _ _ => true
  | _ => false

/-- Reading the required dict field `token["text"]`: a `KeyError` when the
key is absent. -/
def getTextField (t : Token) : Except String String :=
  match t.text with
  | some s => Except.ok s
  | none => Except.error "KeyError: text"

namespace SonioxRealtime

/-- The exact string each `text_parts.append(...)` of
`soniox_realtime.render_tokens` produces. -/
def partStr : RPart → String
  | RPart.paraBreak => "\n\n"
  | RPart.speakerTag s => "Speaker " ++ s ++ ":"
  | RPart.langTag isTranslation lang =>
      "\n" ++ (if isTranslation then "[Translation] " else "") ++ "[" ++ lang ++ "] "
  | RPart.text t => t

/-- The per-token body of the loop of `soniox_realtime.render_tokens`
(lines 139-160): given the tracked `current_speaker` and
`current_language`, produce the parts appended for this token and the
updated trackers. -/
def renderStep (cs cl : Option String) (t : Token) :
    Except String (List RPart × Option String × Option String) := do
  let text ← getTextField t
  let is_translation := t.translation_status == some "translation"
  -- Speaker changed -> add a speaker tag (resetting the language).
  let (parts1, cs1, cl1) :=
    match t.speaker with
    | none => (([] : List RPart), cs, cl)
    | some s =>
        if some s = cs then (([] : List RPart), cs, cl)
        else ((if cs = none then ([] : List RPart) else [RPart.paraBreak]) ++
                [RPart.speakerTag s], some s, (none : Option String))
  -- Language changed -> add a language or translation tag, lstrip the text.
  let (parts2, cl2, text2) :=
    match t.language with
    | none => (([] : List RPart), cl1, text)
    | some l =>
        if some l = cl1 then (([] : List RPart), cl1, text)
        else ([RPart.langTag is_translation l], (some l : Option String), pyLstrip text)
  Except.ok (parts1 ++ parts2 ++ [RPart.text text2], cs1, cl2)

/-- The full loop of `soniox_realtime.render_tokens` over
`final_tokens + non_final_tokens`. -/
def renderLoop (cs cl : Option String) : List Token → Except String (List RPart)
  | [] => Except.ok []
  | t :: ts => do
      let (ps, cs1, cl1) ← renderStep cs cl t
      let rest ← renderLoop cs1 cl1 ts
      Except.ok (ps ++ rest)

/-- `soniox_realtime.render_tokens` (lines 133-164): render the final and
non-final tokens, then append the fixed terminator line. -/
def render_tokens (final_tokens non_final_tokens : List Token) : Except String String := do
  let ps ← renderLoop none none (final_tokens ++ non_final_tokens)
  Except.ok (String.join (ps.map partStr) ++ "\n===============================")

end SonioxRealtime

namespace SonioxUi

/-- The exact string each `text_parts.append(...)` of
`TranscriptionSession.render_tokens` (soniox_ui.py) produces. -/
def partStr : RPart → String
  | RPart.paraBreak => "\n\n"
  | RPart.speakerTag s => "Speaker " ++ s ++ ":"
  | RPart.langTag isTranslation lang =>
      "\n" ++ (if isTranslation then "[Translation] " else "") ++ "[" ++ lang ++ "] "
  | RPart.text t => t

/-- The per-token body of the loop of
`TranscriptionSession.render_tokens` (soniox_ui.py lines 108-127). -/
def renderStep (cs cl : Option String) (t : Token) :
    Except String (List RPart × Option String × Option String) := do
  let text ← getTextField t
  let is_translation := t.translation_status == some "translation"
  let (parts1, cs1, cl1) :=
    match t.speaker with
    | none => (([] : List RPart), cs, cl)
    | some s =>
        if some s = cs then (([] : List RPart), cs, cl)
        else ((if cs = none then ([] : List RPart) else [RPart.paraBreak]) ++
                [RPart.speakerTag s], some s, (none : Option String))
  let (parts2, cl2, text2) :=
    match t.language with
    | none => (([] : List RPart), cl1, text)
    | some l =>
        if some l = cl1 then (([] : List RPart), cl1, text)
        else ([RPart.langTag is_translation l], (some l : Option String), pyLstrip text)
  Except.ok (parts1 ++ parts2 ++ [RPart.text text2], cs1, cl2)

/-- The full loop of `TranscriptionSession.render_tokens` over
`final_tokens + non_final_tokens`. -/
def renderLoop (cs cl : Option String) : List Token → Except String (List RPart)
  | [] => Except.ok []
  | t :: ts => do
      let (ps, cs1, cl1) ← renderStep cs cl t
      let rest ← renderLoop cs1 cl1 ts
      Except.ok (ps ++ rest)

/-- `TranscriptionSession.render_tokens` (soniox_ui.py lines 101-129):
identical loop, but the result is joined without any terminator. -/
def render_tokens (final_tokens non_final_tokens : List Token) : Except String String := do
  let ps ← renderLoop none none (final_tokens ++ non_final_tokens)
  Except.ok (String.join (ps.map partStr))

/-- One decoded server response (`res` in `receive_messages`), the
`ResponseBatch` of the spec.  `error_message` is read with `res[...]`, so
it is optional here and its access is fallible. -/
structure Batch where
  error_code : Option Nat := none
  error_message : Option String := none
  tokens : List Token := []
  finished : Bool := false
deriving DecidableEq, Repr

/-- The token loop of `receive_messages` (soniox_ui.py lines 143-149): a
token with truthy `text` goes to the final or the non-final list by its
`is_final` flag; other tokens are skipped.  Returns
`(appended finals, non_final_tokens)` in arrival order. -/
def splitTokens : List Token → List Token × List Token
  | [] => ([], [])
  | t :: ts =>
      let (fs, ns) := splitTokens ts
      if truthyStr t.text then
        if t.is_final then (t :: fs, ns) else (fs, t :: ns)
      else (fs, ns)

/-- The final tokens a batch appends to `self.final_tokens`. -/
def finalsOf (b : Batch) : List Token := (splitTokens b.tokens).1

/-- The `non_final_tokens` list a batch produces — the interim buffer of
that batch. -/
def nonFinalsOf (b : Batch) : List Token := (splitTokens b.tokens).2

/-- The mutable attributes of `TranscriptionSession` that the embedded
operations touch.  Thread handles and the websocket are kept as Python
truthiness (`self.ws` is `None` or an open handle). -/
structure Session where
  stop_event : Bool
  is_running : Bool
  ws : Bool
  audio_thread : Bool
  receive_thread : Bool
  final_tokens : List Token
  current_transcript : String
deriving DecidableEq, Repr

/-- `TranscriptionSession.__init__`: stop event clear, not running, no
websocket, no threads, empty final log, empty transcript. -/
def initSession : Session :=
  { stop_event := false, is_running := false, ws := false,
    audio_thread := false, receive_thread := false,
    final_tokens := [], current_transcript := "" }

/-- How one iteration of the `receive_messages` loop ends: `ok brk` is a
normal pass (`brk` = the loop `break`s), `raised m` is a Python exception
escaping the iteration (state keeps the mutations made before the raise,
as in Python). -/
inductive BatchOutcome where
  | ok (brk : Bool) : BatchOutcome
  | raised (msg : String) : BatchOutcome
deriving DecidableEq, Repr

/-- One iteration of the `receive_messages` loop body (soniox_ui.py lines
134-156) on an already decoded batch: handle a server error, split the
tokens, extend `final_tokens`, re-render `current_transcript`.  Also
returns the batch's `non_final_tokens` (the interim buffer). -/
def processBatch (s : Session) (b : Batch) : Session × List Token × BatchOutcome :=
  match b.error_code with
  | some c =>
      match b.error_message with
      | some m =>
          ({ s with current_transcript := "Error: " ++ toString c ++ " - " ++ m },
           [], BatchOutcome.ok true)
      | none => (s, [], BatchOutcome.raised "KeyError: error_message")
  | none =>
      let fs := finalsOf b
      let ns := nonFinalsOf b
      let s1 := { s with final_tokens := s.final_tokens ++ fs }
      match render_tokens s1.final_tokens ns with
      | Except.ok txt => ({ s1 with current_transcript := txt }, ns, BatchOutcome.ok b.finished)
      | Except.error m => (s1, ns, BatchOutcome.raised m)

/-- What one `self.ws.recv()` call yields: a decoded message, a
`ConnectionClosedOK`, or some other raised exception (e.g. a connection
error) carrying its description `str(e)`. -/
inductive RecvEvent where
  | msg (b : Batch) : RecvEvent
  | connClosedOk : RecvEvent
  | exn (d : String) : RecvEvent
deriving DecidableEq, Repr

/-- `TranscriptionSession.receive_messages` (soniox_ui.py lines 131-162)
over a stream of receive events: the `while not self.stop_event` loop with
the surrounding `try`/`except` blocks.  `ConnectionClosedOK` is swallowed;
any other exception appends an error description to the transcript unless
the stop event is set.  The function is total: no exception escapes it. -/
def receive_messages (s : Session) : List RecvEvent → Session
  | [] => s
  | ev :: evs =>
      if s.stop_event then s
      else
        match ev with
        | RecvEvent.connClosedOk => s
        | RecvEvent.exn d =>
            if s.stop_event then s
            else { s with current_transcript := s.current_transcript ++ "\n\nError: " ++ d }
        | RecvEvent.msg b =>
            match processBatch s b with
            | (s1, _, BatchOutcome.ok brk) => if brk then s1 else receive_messages s1 evs
            | (s1, _, BatchOutcome.raised m) =>
                if s1.stop_event then s1
                else { s1 with current_transcript := s1.current_transcript ++ "\n\nError: " ++ m }

/-- The release / join operations `stop` may invoke, in order. -/
inductive Effect where
  | joinAudio : Effect
  | joinReceive : Effect
  | closeWs : Effect
deriving DecidableEq, Repr

/-- `TranscriptionSession.stop` (soniox_ui.py lines 195-211): status
string, next session state, and the join/close effects performed. -/
def stop (s : Session) : String × Session × List Effect :=
  if !s.is_running then ("No active session", s, [])
  else
    let s1 := { s with stop_event := true, is_running := false }
    let effs := (if s1.audio_thread then [Effect.joinAudio] else []) ++
                (if s1.receive_thread then [Effect.joinReceive] else [])
    if s1.ws then
      ("⏹️ Recording stopped", { s1 with ws := false }, effs ++ [Effect.closeWs])
    else
      ("⏹️ Recording stopped", s1, effs)

/-- `TranscriptionSession.get_transcript` (soniox_ui.py lines 213-214). -/
def get_transcript (s : Session) : String := s.current_transcript

end SonioxUi

namespace Gcloud

/-- `LANGUAGE_CODES` of gcloud_stt_realtime.py. -/
def LANGUAGE_CODES : List String :=
  ["en-US", "hi-IN", "es-ES", "gu-IN", "de-DE", "ja-JP", "zh-CN", "ar-SA"]

/-- The `lang_map` of `TranscriptionManager._get_language_name`. -/
def langMap : List (String × String) :=
  [("en-US", "EN"), ("hi-IN", "HI"), ("es-ES", "ES"), ("gu-IN", "GU"),
   ("de-DE", "DE"), ("ja-JP", "JA"), ("zh-CN", "ZH"), ("ar-SA", "AR")]

/-- `TranscriptionManager._get_language_name` (lines 199-211): mapped name
or the first two characters upper-cased. -/
def get_language_name (lang_code : String) : String :=
  match langMap.lookup lang_code with
  | some n => n
  | none => (lang_code.take 2).toUpper

/-- The first (and only inspected) alternative of one streaming response:
`response.results[0].alternatives[0]` plus `result.is_final`.
`language_code` keeps the protobuf convention of defaulting to the empty
string when unset. -/
structure GResult where
  transcript : String
  language_code : String := ""
  is_final : Bool := false
deriving DecidableEq, Repr

/-- The fields of `TranscriptionManager` that `_process_responses`
reads/writes, plus its local `last_detected_lang`. -/
structure GState where
  last_detected_lang : Option String
  detected_language : String
  language_history : List String
  full_transcript : String
  interim_transcript : String
deriving DecidableEq, Repr

/-- The manager state right after `start_transcription` reset it and
`_process_responses` initialised its local `last_detected_lang = None`. -/
def initGState : GState :=
  { last_detected_lang := none, detected_language := "Detecting...",
    language_history := [], full_transcript := "", interim_transcript := "" }

/-- `current_lang` of one response (lines 168-173): the alternative's
`language_code` when truthy, else the fallback `LANGUAGE_CODES[0]`. -/
def currentLangOf (r : GResult) : String :=
  if r.language_code = "" then LANGUAGE_CODES.headI else r.language_code

/-- The body of the `for response in responses` loop of
`TranscriptionManager._process_responses` (lines 150-197): track language
changes, then append to `full_transcript` (tagging only once more than one
distinct language has been seen) or replace `interim_transcript`. -/
def gStep (st : GState) (r : GResult) : GState :=
  let current_lang := currentLangOf r
  let st :=
    if st.last_detected_lang ≠ some current_lang then
      { st with
          last_detected_lang := some current_lang,
          detected_language := current_lang,
          language_history :=
            if current_lang ∈ st.language_history then st.language_history
            else st.language_history ++ [current_lang] }
    else st
  if r.is_final then
    if 1 < st.language_history.length then
      { st with
          full_transcript := st.full_transcript ++
            ("[" ++ get_language_name current_lang ++ "] " ++ r.transcript ++ " "),
          interim_transcript := "" }
    else
      { st with
          full_transcript := st.full_transcript ++ (r.transcript ++ " "),
          interim_transcript := "" }
  else
    { st with interim_transcript := r.transcript }

/-- `_process_responses` over a whole response stream. -/
def processResponses (st : GState) (rs : List GResult) : GState :=
  rs.foldl gStep st

/-- One field write to the shared transcript pair performed inside a
`with self.lock` block of `_process_responses`: `self.full_transcript +=
s` or `self.interim_transcript = s`. -/
inductive Wr where
  | appendFull (s : String) : Wr
  | setInterim (s : String) : Wr
deriving DecidableEq, Repr

/-- The language-tracking update of one response (lines 176-181),
everything `gStep` does before the transcript writes. -/
def gLangUpdate (st : GState) (r : GResult) : GState :=
  let current_lang := currentLangOf r
  if st.last_detected_lang ≠ some current_lang then
    { st with
        last_detected_lang := some current_lang,
        detected_language := current_lang,
        language_history :=
          if current_lang ∈ st.language_history then st.language_history
          else st.language_history ++ [current_lang] }
  else st

/-- The transcript writes the locked block of lines 183-195 performs for
one response, given the state after the language update: a final result
appends (tagged once more than one language has been seen) and clears the
interim, a non-final result replaces the interim. -/
def gTransWrites (st : GState) (r : GResult) : List Wr :=
  if r.is_final then
    if 1 < st.language_history.length then
      [Wr.appendFull ("[" ++ get_language_name (currentLangOf r) ++ "] " ++ r.transcript ++ " "),
       Wr.setInterim ""]
    else
      [Wr.appendFull (r.transcript ++ " "), Wr.setInterim ""]
  else
    [Wr.setInterim r.transcript]

/-- Applying one transcript write to the manager state. -/
def applyWrToState (st : GState) : Wr → GState
  | Wr.appendFull s => { st with full_transcript := st.full_transcript ++ s }
  | Wr.setInterim s => { st with interim_transcript := s }

/-- The critical sections (one per response) the receive task executes
under `self.lock`, in order, with the exact strings written. -/
def lockedSections (st : GState) : List GResult → List (List Wr)
  | [] => []
  | r :: rs => gTransWrites (gLangUpdate st r) r :: lockedSections (gStep st r) rs

/-- The shared transcript pair the snapshot reads, as protected by
`self.lock`. -/
structure Mem where
  full : String
  interim : String
deriving DecidableEq, Repr

/-- Applying one locked write to the shared pair. -/
def applyW (m : Mem) : Wr → Mem
  | Wr.appendFull s => { m with full := m.full ++ s }
  | Wr.setInterim s => { m with interim := s }

/-- Applying one whole critical section. -/
def applySec (m : Mem) (sec : List Wr) : Mem := sec.foldl applyW m

/-- The shared pair after the first `k` critical sections — the states a
lock-respecting reader may observe. -/
def boundary (init : Mem) (secs : List (List Wr)) (k : Nat) : Mem :=
  (secs.take k).foldl applySec init

/-- Who holds `self.lock`. -/
inductive Owner where
  | writer : Owner
  | reader : Owner
deriving DecidableEq, Repr

/-- Progress of one `get_current_transcript` call: before its
`with self.lock`, about to read `full_transcript`, about to read
`interim_transcript`, about to release, returned. -/
inductive RPhase where
  | idle : RPhase
  | readF : RPhase
  | readI : RPhase
  | unlock : RPhase
  | done : RPhase
deriving DecidableEq, Repr

/-- A configuration of the two-thread system: shared pair, lock owner, the
writer's remaining critical sections and progress inside the current one,
the reader's phase, and the values the reader has read. -/
structure Cfg where
  mem : Mem
  lock : Option Owner
  wprog : List (List Wr)
  wcur : Option (List Wr)
  rphase : RPhase
  log : List String
deriving DecidableEq, Repr

/-- One step of the receive task: perform the next write of the current
section, or release the lock at the section's end, or acquire the lock to
start the next section (stalling while the reader holds it). -/
def wstep (c : Cfg) : Cfg :=
  match c.wcur with
  | some (w :: ws) => { c with mem := applyW c.mem w, wcur := some ws }
  | some [] => { c with wcur := none, lock := none }
  | none =>
      match c.wprog with
      | [] => c
      | sec :: rest =>
          if c.lock = none then
            { c with lock := some Owner.writer, wcur := some sec, wprog := rest }
          else c

/-- One step of the snapshot reader (`get_current_transcript`): acquire
the lock (stalling while the writer holds it), read the two fields, and
release. -/
def rstep (c : Cfg) : Cfg :=
  match c.rphase with
  | RPhase.idle =>
      if c.lock = none then { c with lock := some Owner.reader, rphase := RPhase.readF } else c
  | RPhase.readF => { c with log := c.log ++ [c.mem.full], rphase := RPhase.readI }
  | RPhase.readI => { c with log := c.log ++ [c.mem.interim], rphase := RPhase.unlock }
  | RPhase.unlock => { c with lock := none, rphase := RPhase.done }
  | RPhase.done => c

/-- Run a schedule: `true` steps the receive task, `false` steps the
reader. -/
def run (sched : List Bool) (c : Cfg) : Cfg :=
  sched.foldl (fun c side => if side then wstep c else rstep c) c

/-- Initial configuration: lock free, no section started, reader not yet
inside its critical section. -/
def cfg0 (init : Mem) (secs : List (List Wr)) : Cfg :=
  { mem := init, lock := none, wprog := secs, wcur := none,
    rphase := RPhase.idle, log := [] }

/-- Writer-side invariant, over the writer-relevant components of a
configuration: `k` critical sections have been fully applied, and the
writer is either between sections (not holding the lock) or mid-section
holding it, with the shared pair reflecting exactly the writes performed
so far. -/
def WInv (init : Mem) (secs : List (List Wr)) (wcur : Option (List Wr))
    (wprog : List (List Wr)) (mem : Mem) (lock : Option Owner) (k : Nat) : Prop :=
  (wcur = none ∧ wprog = secs.drop k ∧ mem = boundary init secs k ∧
     lock ≠ some Owner.writer) ∨
  (∃ pre ws, wcur = some ws ∧ secs.drop k = (pre ++ ws) :: wprog ∧
     mem = applySec (boundary init secs k) pre ∧ lock = some Owner.writer)

/-- Reader-side invariant, over the reader-relevant components: while
inside its critical section the reader holds the lock and its log matches
the (then frozen) shared pair; once done, the log is a section-boundary
snapshot. -/
def RInv (init : Mem) (secs : List (List Wr)) (rphase : RPhase)
    (lock : Option Owner) (log : List String) (mem : Mem) : Prop :=
  match rphase with
  | RPhase.idle => log = [] ∧ lock ≠ some Owner.reader
  | RPhase.readF => lock = some Owner.reader ∧ log = []
  | RPhase.readI => lock = some Owner.reader ∧ log = [mem.full]
  | RPhase.unlock => lock = some Owner.reader ∧ log = [mem.full, mem.interim]
  | RPhase.done => lock ≠ some Owner.reader ∧
      ∃ j, j ≤ secs.length ∧
        log = [(boundary init secs j).full, (boundary init secs j).interim]

/-- The full invariant carried through every interleaving. -/
def Inv (init : Mem) (secs : List (List Wr)) (c : Cfg) : Prop :=
  ∃ k, k ≤ secs.length ∧ WInv init secs c.wcur c.wprog c.mem c.lock k ∧
    RInv init secs c.rphase c.lock c.log c.mem

end Gcloud

namespace LockUsage

/-- One attribute access of the shared transcript state in a source
method, with whether the manager's mutual-exclusion lock is held at that
source line. -/
structure Access where
  attr : String
  isWrite : Bool
  underLock : Bool
deriving DecidableEq, Repr

/-- `TranscriptionSession.get_transcript` (soniox_ui.py lines 213-214):
one read of `current_transcript`; the class holds no lock — it has no lock
attribute at all. -/
def sonioxGetTranscriptAccesses : List Access :=
  [{ attr := "current_transcript", isWrite := false, underLock := false }]

/-- The transcript-state mutations of
`TranscriptionSession.receive_messages` (soniox_ui.py lines 138, 147,
151-153 and 162): all performed without any lock. -/
def sonioxReceiveAccesses : List Access :=
  [{ attr := "current_transcript", isWrite := true, underLock := false },
   { attr := "final_tokens", isWrite := true, underLock := false },
   { attr := "current_transcript", isWrite := true, underLock := false },
   { attr := "current_transcript", isWrite := true, underLock := false }]

/-- The reads of `TranscriptionManager.get_current_transcript`
(gcloud_stt_realtime.py lines 213-232): all inside `with self.lock`. -/
def gcloudGetTranscriptAccesses : List Access :=
  [{ attr := "interim_transcript", isWrite := false, underLock := true },
   { attr := "detected_language", isWrite := false, underLock := true },
   { attr := "full_transcript", isWrite := false, underLock := true }]

/-- The transcript-state mutations of the locked block of
`TranscriptionManager._process_responses` (gcloud_stt_realtime.py lines
183-197): all inside `with self.lock`. -/
def gcloudProcessAccesses : List Access :=
  [{ attr := "full_transcript", isWrite := true, underLock := true },
   { attr := "interim_transcript", isWrite := true, underLock := true }]

end LockUsage

namespace SonioxMultilingual

/-- The punctuation class `[.,!?;]` of the tokenizing regex in
`map_languages` (soniox_multilingual_stream.py line 70). -/
def isPunctChar (c : Char) : Bool :=
  c = '.' || c = ',' || c = '!' || c = '?' || c = ';'

/-- The word class of the regex alternative `[\w']+`: alphanumerics,
underscore and the apostrophe (ASCII range of Python's `\w`). -/
def isWordChar (c : Char) : Bool :=
  c.isAlphanum || c = '_' || c = '\x27'

/-- `re.findall(r"[\w']+|[.,!?;]", text)`, fuelled so the recursion is
structural: scan left to right, taking a maximal word-character run or a
single listed punctuation character; everything else (whitespace included)
separates tokens and is dropped.  The fuel only bounds the recursion depth
(one unit per emitted-or-skipped leading character); `findTokens` supplies
`length l`, which always suffices because each step consumes at least one
character. -/
def findTokensF : Nat → List Char → List String
  | _, [] => []
  | 0, _ :: _ => []
  | Nat.succ f, c :: cs =>
      if isWordChar c then
        String.mk (c :: cs.takeWhile isWordChar) :: findTokensF f (cs.dropWhile isWordChar)
      else if isPunctChar c then
        String.singleton c :: findTokensF f cs
      else findTokensF f cs

/-- The tokenizer `re.findall(r"[\w']+|[.,!?;]", text)` of
`map_languages`. -/
def findTokens (l : List Char) : List String := findTokensF l.length l

/-- `re.match(r"[.,!?;]", word)`: the token starts with a listed
punctuation character. -/
def matchesPunct (word : String) : Bool :=
  match word.data with
  | c :: _ => isPunctChar c
  | [] => false

/-- The loop body of `map_languages`: punctuation tokens pass through,
otherwise the lower-cased word is looked up in the Hindi dictionary first,
then the Gujarati one, else the word passes through. -/
def substWord (hindi_dict gujarati_dict : List (String × String)) (word : String) : String :=
  if matchesPunct word then word
  else
    let lower_word := pyLower word
    match hindi_dict.lookup lower_word with
    | some v => v
    | none =>
        match gujarati_dict.lookup lower_word with
        | some v => v
        | none => word

/-- `map_languages` (soniox_multilingual_stream.py lines 68-84, same body
as `TerminalMultilingualASR.map_languages` in paper_stt_based.py lines
50-70): tokenize, substitute per token, join with single spaces. -/
def map_languages (text : String) (hindi_dict gujarati_dict : List (String × String)) : String :=
  " ".intercalate ((findTokens text.data).map (substWord hindi_dict gujarati_dict))

/-- The Hindi sample dictionary of `load_dictionary`
(soniox_multilingual_stream.py lines 52-56). -/
def hindiSample : List (String × String) :=
  [("dosto", "दोस्तों"), ("aaj", "आज"), ("mausam", "मौसम"), ("accha", "अच्छा"),
   ("kal", "कल"), ("kya", "क्या"), ("tum", "तुम"), ("office", "ऑफिस"),
   ("rahe", "रहे"), ("ho", "हो"), ("namaste", "नमस्ते"), ("dhanyawad", "धन्यवाद"),
   ("main", "मैं"), ("tha", "था"), ("thi", "थी")]

/-- The Gujarati sample dictionary of `load_dictionary`
(soniox_multilingual_stream.py lines 57-61). -/
def gujaratiSample : List (String × String) :=
  [("kem", "કેમ"), ("cho", "છો"), ("che", "છે"), ("tame", "તમે"), ("kyā", "ક્યાં"),
   ("jaī", "જઈ"), ("rahyā", "રહ્યા"), ("baje", "બજે"), ("hu", "હું"),
   ("chhu", "છું"), ("chhe", "છે"), ("aavu", "આવું"), ("padharo", "પધારો")]

end SonioxMultilingual

/-! ## Helper lemmas -/

theorem truthyStr_isSome {o : Option String} (h : truthyStr o = true) : o.isSome = true := by
  cases o with
  | none => simp [truthyStr] at h
  | some s => rfl

theorem splitTokens_eq_filters (l : List Token) :
    SonioxUi.splitTokens l =
      (l.filter (fun t => truthyStr t.text && t.is_final),
       l.filter (fun t => truthyStr t.text && !t.is_final)) := by
  induction l with
  | nil => rfl
  | cons t ts ih =>
      simp only [SonioxUi.splitTokens, ih, List.filter_cons]
      cases h1 : truthyStr t.text <;> cases h2 : t.is_final <;> simp [h1, h2]

theorem renderStep_ui_eq_rt (cs cl : Option String) (t : Token) :
    SonioxUi.renderStep cs cl t = SonioxRealtime.renderStep cs cl t := rfl

theorem partStr_ui_eq_rt : SonioxUi.partStr = SonioxRealtime.partStr := by
  funext p
  cases p <;> rfl

theorem renderLoop_ui_eq_rt (l : List Token) : ∀ cs cl : Option String,
    SonioxUi.renderLoop cs cl l = SonioxRealtime.renderLoop cs cl l := by
  induction l with
  | nil => intro cs cl; rfl
  | cons t ts ih =>
      intro cs cl
      simp only [SonioxUi.renderLoop, SonioxRealtime.renderLoop, renderStep_ui_eq_rt, ih]

/-- C9: for every pair of token lists, the module-level `render_tokens` of
soniox_realtime.py and `TranscriptionSession.render_tokens` of
soniox_ui.py agree, except that the module-level one appends the fixed
terminator string `"\n==============================="`. -/
theorem C9_renderers_equal_up_to_terminator (final_tokens non_final_tokens : List Token) :
    SonioxRealtime.render_tokens final_tokens non_final_tokens =
      Except.map (fun s => s ++ "\n===============================")
        (SonioxUi.render_tokens final_tokens non_final_tokens) := by
  simp only [SonioxRealtime.render_tokens, SonioxUi.render_tokens, renderLoop_ui_eq_rt,
    partStr_ui_eq_rt]
  cases h : SonioxRealtime.renderLoop none none (final_tokens ++ non_final_tokens) with
  | error e => simp [Except.map, h, Bind.bind, Except.bind]
  | ok ps => simp [Except.map, h, Bind.bind, Except.bind]

/-- C3 counterexample: on tokens `[{lang:en},{lang:en},{lang:hi},{lang:hi}]`
of one speaker the renderer of soniox_realtime.py emits TWO language tags —
an `[en]` tag immediately before the first token and an `[hi]` tag before
the third — not exactly one; and the threshold variant of
gcloud_stt_realtime.py (`len(language_history) > 1`) tags BOTH Hindi final
results, yielding two `[HI]` markers.  So the claimed "exactly one language
tag, no [en] tag" is false on both cited implementations. -/
theorem C3_counterexample_language_tags :
    SonioxRealtime.renderLoop none none
      [{ text := some " hello", is_final := true, speaker := some "1", language := some "en", translation_status := none },
       { text := some " there", is_final := true, speaker := some "1", language := some "en", translation_status := none },
       { text := some " kya", is_final := true, speaker := some "1", language := some "hi", translation_status := none },
       { text := some " haal", is_final := true, speaker := some "1", language := some "hi", translation_status := none }] =
      Except.ok [RPart.speakerTag "1", RPart.langTag false "en", RPart.text "hello",
        RPart.text " there", RPart.langTag false "hi", RPart.text "kya", RPart.text " haal"] ∧
    List.countP RPart.isLangTag
      [RPart.speakerTag "1", RPart.langTag false "en", RPart.text "hello",
       RPart.text " there", RPart.langTag false "hi", RPart.text "kya", RPart.text " haal"] = 2 ∧
    RPart.langTag false "en" ∈
      [RPart.speakerTag "1", RPart.langTag false "en", RPart.text "hello",
       RPart.text " there", RPart.langTag false "hi", RPart.text "kya", RPart.text " haal"] ∧
    (Gcloud.processResponses Gcloud.initGState
      [{ transcript := "t1", language_code := "en-US", is_final := true },
       { transcript := "t2", language_code := "en-US", is_final := true },
       { transcript := "t3", language_code := "hi-IN", is_final := true },
       { transcript := "t4", language_code := "hi-IN", is_final := true }]).full_transcript =
      "t1 t2 [HI] t3 [HI] t4 " := by
  exact ⟨rfl, by decide, by decide, rfl⟩

/-- C3 amended: `render_tokens` applies no minimum-distinct-languages
threshold at all.  For the token sequence
`[{lang:en},{lang:en},{lang:hi},{lang:hi}]` within one speaker it renders
exactly two language tags: `[en]` immediately before the first token's
(lstripped) text and `[hi]` immediately before the third token's
(lstripped) text. -/
theorem C3_amended_language_tags (x1 x2 x3 x4 : String) :
    SonioxRealtime.renderLoop none none
      [{ text := some x1, is_final := true, speaker := some "1", language := some "en", translation_status := none },
       { text := some x2, is_final := true, speaker := some "1", language := some "en", translation_status := none },
       { text := some x3, is_final := true, speaker := some "1", language := some "hi", translation_status := none },
       { text := some x4, is_final := true, speaker := some "1", language := some "hi", translation_status := none }] =
      Except.ok [RPart.speakerTag "1", RPart.langTag false "en", RPart.text (pyLstrip x1),
        RPart.text x2, RPart.langTag false "hi", RPart.text (pyLstrip x3), RPart.text x4] ∧
    List.countP RPart.isLangTag
      [RPart.speakerTag "1", RPart.langTag false "en", RPart.text (pyLstrip x1),
       RPart.text x2, RPart.langTag false "hi", RPart.text (pyLstrip x3), RPart.text x4] = 2 := by
  refine ⟨rfl, ?_⟩
  simp [List.countP_cons, RPart.isLangTag]

/-- C4: for every token sequence whose speakers follow the pattern
`[a,a,b,b,a]` with `a ≠ b` and one language throughout, the renderer emits
exactly 3 speaker-boundary labels, each non-first label preceded by a
paragraph break, and each speaker change resets the tracked language (so
the language tag reappears right after every speaker label). -/
theorem C4_speaker_boundary_labels (a b : String) (hab : a ≠ b)
    (lang : String) (x1 x2 x3 x4 x5 : String) :
    SonioxRealtime.renderLoop none none
      [{ text := some x1, is_final := true, speaker := some a, language := some lang, translation_status := none },
       { text := some x2, is_final := true, speaker := some a, language := some lang, translation_status := none },
       { text := some x3, is_final := true, speaker := some b, language := some lang, translation_status := none },
       { text := some x4, is_final := true, speaker := some b, language := some lang, translation_status := none },
       { text := some x5, is_final := true, speaker := some a, language := some lang, translation_status := none }] =
      Except.ok [RPart.speakerTag a, RPart.langTag false lang, RPart.text (pyLstrip x1), RPart.text x2,
        RPart.paraBreak, RPart.speakerTag b, RPart.langTag false lang, RPart.text (pyLstrip x3), RPart.text x4,
        RPart.paraBreak, RPart.speakerTag a, RPart.langTag false lang, RPart.text (pyLstrip x5)] ∧
    List.countP RPart.isSpeakerTag
      [RPart.speakerTag a, RPart.langTag false lang, RPart.text (pyLstrip x1), RPart.text x2,
       RPart.paraBreak, RPart.speakerTag b, RPart.langTag false lang, RPart.text (pyLstrip x3), RPart.text x4,
       RPart.paraBreak, RPart.speakerTag a, RPart.langTag false lang, RPart.text (pyLstrip x5)] = 3 := by
  constructor
  · simp [SonioxRealtime.renderLoop, SonioxRealtime.renderStep, getTextField, hab, Ne.symm hab,
      Bind.bind, Except.bind]
  · simp [List.countP_cons, RPart.isSpeakerTag]

/-- C4 witness: the pattern at concrete speakers `1`, `2`, language `en`,
and concrete texts. -/
theorem C4_speaker_boundary_labels_witness :
    SonioxRealtime.renderLoop none none
      [{ text := some "p", is_final := true, speaker := some "1", language := some "en", translation_status := none },
       { text := some "q", is_final := true, speaker := some "1", language := some "en", translation_status := none },
       { text := some "r", is_final := true, speaker := some "2", language := some "en", translation_status := none },
       { text := some "u", is_final := true, speaker := some "2", language := some "en", translation_status := none },
       { text := some "v", is_final := true, speaker := some "1", language := some "en", translation_status := none }] =
      Except.ok [RPart.speakerTag "1", RPart.langTag false "en", RPart.text (pyLstrip "p"), RPart.text "q",
        RPart.paraBreak, RPart.speakerTag "2", RPart.langTag false "en", RPart.text (pyLstrip "r"), RPart.text "u",
        RPart.paraBreak, RPart.speakerTag "1", RPart.langTag false "en", RPart.text (pyLstrip "v")] ∧
    List.countP RPart.isSpeakerTag
      [RPart.speakerTag "1", RPart.langTag false "en", RPart.text (pyLstrip "p"), RPart.text "q",
       RPart.paraBreak, RPart.speakerTag "2", RPart.langTag false "en", RPart.text (pyLstrip "r"), RPart.text "u",
       RPart.paraBreak, RPart.speakerTag "1", RPart.langTag false "en", RPart.text (pyLstrip "v")] = 3 :=
  C4_speaker_boundary_labels "1" "2" (by decide) "en" "p" "q" "r" "u" "v"

theorem renderStep_ui_ok (cs cl : Option String) (t : Token) (x : String) (hx : t.text = some x) :
    ∃ v, SonioxUi.renderStep cs cl t = Except.ok v := by
  obtain ⟨ot, fin, spk, lng, tr⟩ := t
  simp only at hx
  subst hx
  simp only [SonioxUi.renderStep, getTextField, Bind.bind, Except.bind]
  cases spk <;> cases lng <;> split_ifs <;> exact ⟨_, rfl⟩

theorem renderLoop_ui_ok : ∀ (l : List Token) (cs cl : Option String),
    (∀ t ∈ l, (t.text).isSome = true) → ∃ ps, SonioxUi.renderLoop cs cl l = Except.ok ps := by
  intro l
  induction l with
  | nil => exact fun cs cl _ => ⟨[], rfl⟩
  | cons t ts ih =>
      intro cs cl h
      obtain ⟨x, hx⟩ := Option.isSome_iff_exists.mp (h t (List.mem_cons_self t ts))
      obtain ⟨⟨ps1, cs1, cl1⟩, hstep⟩ := renderStep_ui_ok cs cl t x hx
      obtain ⟨rest, hr⟩ := ih cs1 cl1 (fun u hu => h u (List.mem_cons_of_mem _ hu))
      exact ⟨ps1 ++ rest, by simp [SonioxUi.renderLoop, hstep, hr, Bind.bind, Except.bind]⟩

theorem render_tokens_ui_ok (ft nft : List Token)
    (h : ∀ t ∈ ft ++ nft, (t.text).isSome = true) :
    ∃ txt, SonioxUi.render_tokens ft nft = Except.ok txt := by
  obtain ⟨ps, hps⟩ := renderLoop_ui_ok (ft ++ nft) none none h
  exact ⟨String.join (ps.map SonioxUi.partStr),
    by simp [SonioxUi.render_tokens, hps, Bind.bind, Except.bind]⟩

theorem mem_finalsOf_truthy {b : SonioxUi.Batch} {t : Token} (h : t ∈ SonioxUi.finalsOf b) :
    truthyStr t.text = true := by
  rw [SonioxUi.finalsOf, splitTokens_eq_filters] at h
  simp only [List.mem_filter, Bool.and_eq_true] at h
  exact h.2.1

theorem mem_nonFinalsOf_truthy {b : SonioxUi.Batch} {t : Token} (h : t ∈ SonioxUi.nonFinalsOf b) :
    truthyStr t.text = true := by
  rw [SonioxUi.nonFinalsOf, splitTokens_eq_filters] at h
  simp only [List.mem_filter, Bool.and_eq_true] at h
  exact h.2.1

theorem processBatch_ui_ok (s : SonioxUi.Session) (b : SonioxUi.Batch)
    (herr : b.error_code = none)
    (hs : ∀ t ∈ s.final_tokens, (t.text).isSome = true) :
    ∃ txt, SonioxUi.render_tokens (s.final_tokens ++ SonioxUi.finalsOf b)
        (SonioxUi.nonFinalsOf b) = Except.ok txt ∧
      SonioxUi.processBatch s b =
        ({ s with final_tokens := s.final_tokens ++ SonioxUi.finalsOf b,
                  current_transcript := txt },
         SonioxUi.nonFinalsOf b, SonioxUi.BatchOutcome.ok b.finished) := by
  have hall : ∀ t ∈ (s.final_tokens ++ SonioxUi.finalsOf b) ++ SonioxUi.nonFinalsOf b,
      (t.text).isSome = true := by
    intro t ht
    rcases List.mem_append.mp ht with h1 | h2
    · rcases List.mem_append.mp h1 with h3 | h4
      · exact hs t h3
      · exact truthyStr_isSome (mem_finalsOf_truthy h4)
    · exact truthyStr_isSome (mem_nonFinalsOf_truthy h2)
  obtain ⟨txt, htxt⟩ := render_tokens_ui_ok _ _ hall
  exact ⟨txt, htxt, by simp [SonioxUi.processBatch, herr, htxt]⟩

/-- C1: the interim buffer is rebuilt from the current batch alone.  From
ANY session state `s`, processing an error-free well-formed batch yields as
interim exactly the batch's own non-final tokens, independent of every
earlier batch; the re-rendered transcript uses exactly that buffer after
the final log. -/
theorem C1_interim_buffer_replaced (s : SonioxUi.Session) (b : SonioxUi.Batch)
    (herr : b.error_code = none)
    (hs : ∀ t ∈ s.final_tokens, (t.text).isSome = true)
    (hwf : ∀ t ∈ b.tokens, truthyStr t.text = true) :
    SonioxUi.nonFinalsOf b = b.tokens.filter (fun t => !t.is_final) ∧
    ∃ txt, SonioxUi.render_tokens (s.final_tokens ++ SonioxUi.finalsOf b)
        (SonioxUi.nonFinalsOf b) = Except.ok txt ∧
      SonioxUi.processBatch s b =
        ({ s with final_tokens := s.final_tokens ++ SonioxUi.finalsOf b,
                  current_transcript := txt },
         SonioxUi.nonFinalsOf b, SonioxUi.BatchOutcome.ok b.finished) := by
  refine ⟨?_, processBatch_ui_ok s b herr hs⟩
  rw [SonioxUi.nonFinalsOf, splitTokens_eq_filters]
  exact List.filter_congr (fun t ht => by rw [hwf t ht, Bool.true_and])

/-- C1 witness: batch N carries interim tokens `A`, `B`; processing batch
N+1 carrying interim token `C` from the resulting state leaves exactly
`[C]` as the interim buffer — no trace of `A` or `B`. -/
theorem C1_interim_buffer_replaced_witness :
    SonioxUi.nonFinalsOf
        { error_code := none, error_message := none,
          tokens := [{ text := some "C", is_final := false, speaker := none, language := none, translation_status := none }],
          finished := false } =
      List.filter (fun t => !t.is_final)
        [{ text := some "C", is_final := false, speaker := none, language := none, translation_status := none }] ∧
    ∃ txt,
      SonioxUi.render_tokens
          (({ stop_event := false, is_running := false, ws := false, audio_thread := false,
              receive_thread := false, final_tokens := [], current_transcript := "AB" } : SonioxUi.Session).final_tokens ++
            SonioxUi.finalsOf
              { error_code := none, error_message := none,
                tokens := [{ text := some "C", is_final := false, speaker := none, language := none, translation_status := none }],
                finished := false })
          (SonioxUi.nonFinalsOf
            { error_code := none, error_message := none,
              tokens := [{ text := some "C", is_final := false, speaker := none, language := none, translation_status := none }],
              finished := false }) = Except.ok txt ∧
      SonioxUi.processBatch
          { stop_event := false, is_running := false, ws := false, audio_thread := false,
            receive_thread := false, final_tokens := [], current_transcript := "AB" }
          { error_code := none, error_message := none,
            tokens := [{ text := some "C", is_final := false, speaker := none, language := none, translation_status := none }],
            finished := false } =
        ({ ({ stop_event := false, is_running := false, ws := false, audio_thread := false,
              receive_thread := false, final_tokens := [], current_transcript := "AB" } : SonioxUi.Session) with
            final_tokens :=
              ({ stop_event := false, is_running := false, ws := false, audio_thread := false,
                 receive_thread := false, final_tokens := [], current_transcript := "AB" } : SonioxUi.Session).final_tokens ++
                SonioxUi.finalsOf
                  { error_code := none, error_message := none,
                    tokens := [{ text := some "C", is_final := false, speaker := none, language := none, translation_status := none }],
                    finished := false },
            current_transcript := txt },
         SonioxUi.nonFinalsOf
           { error_code := none, error_message := none,
             tokens := [{ text := some "C", is_final := false, speaker := none, language := none, translation_status := none }],
             finished := false },
         SonioxUi.BatchOutcome.ok false) :=
  C1_interim_buffer_replaced
    { stop_event := false, is_running := false, ws := false, audio_thread := false,
      receive_thread := false, final_tokens := [], current_transcript := "AB" }
    { error_code := none, error_message := none,
      tokens := [{ text := some "C", is_final := false, speaker := none, language := none, translation_status := none }],
      finished := false }
    rfl (by decide) (by decide)

theorem processBatch_finals_extend (s : SonioxUi.Session) (b : SonioxUi.Batch) :
    ∃ u, (SonioxUi.processBatch s b).1.final_tokens = s.final_tokens ++ u := by
  unfold SonioxUi.processBatch
  cases b.error_code with
  | some c =>
      cases b.error_message with
      | some m => exact ⟨[], by simp⟩
      | none => exact ⟨[], by simp⟩
  | none =>
      cases hr : SonioxUi.render_tokens (s.final_tokens ++ SonioxUi.finalsOf b)
          (SonioxUi.nonFinalsOf b) with
      | ok txt => exact ⟨SonioxUi.finalsOf b, by simp [hr]⟩
      | error m => exact ⟨SonioxUi.finalsOf b, by simp [hr]⟩

theorem receive_finals_extend : ∀ (evs : List SonioxUi.RecvEvent) (s : SonioxUi.Session),
    ∃ u, (SonioxUi.receive_messages s evs).final_tokens = s.final_tokens ++ u := by
  intro evs
  induction evs with
  | nil => exact fun s => ⟨[], by simp [SonioxUi.receive_messages]⟩
  | cons ev evs ih =>
      intro s
      cases hstop : s.stop_event with
      | true => exact ⟨[], by simp [SonioxUi.receive_messages, hstop]⟩
      | false =>
          cases ev with
          | connClosedOk => exact ⟨[], by simp [SonioxUi.receive_messages, hstop]⟩
          | exn d => exact ⟨[], by simp [SonioxUi.receive_messages, hstop]⟩
          | msg b =>
              rcases hpb : SonioxUi.processBatch s b with ⟨s1, ns, oc⟩
              have hu := processBatch_finals_extend s b
              rw [hpb] at hu
              obtain ⟨u, hu⟩ := hu
              simp only at hu
              cases oc with
              | ok brk =>
                  cases brk with
                  | true => exact ⟨u, by simp [SonioxUi.receive_messages, hstop, hpb, hu]⟩
                  | false =>
                      obtain ⟨v, hv⟩ := ih s1
                      refine ⟨u ++ v, ?_⟩
                      simp [SonioxUi.receive_messages, hstop, hpb, hv, hu, List.append_assoc]
              | raised m =>
                  cases hstop1 : s1.stop_event with
                  | true => exact ⟨u, by simp [SonioxUi.receive_messages, hstop, hpb, hstop1, hu]⟩
                  | false => exact ⟨u, by simp [SonioxUi.receive_messages, hstop, hpb, hstop1, hu]⟩

/-- C2: within one session the final log is append-only across every
stream of receive events: after any run of `receive_messages` the final
log equals the starting log extended by some suffix — so its length is
non-decreasing and no already-appended token is ever removed or altered. -/
theorem C2_final_log_append_only (s : SonioxUi.Session) (evs : List SonioxUi.RecvEvent) :
    ∃ u, (SonioxUi.receive_messages s evs).final_tokens = s.final_tokens ++ u ∧
      s.final_tokens.length ≤ (SonioxUi.receive_messages s evs).final_tokens.length := by
  obtain ⟨u, hu⟩ := receive_finals_extend evs s
  exact ⟨u, hu, by rw [hu]; simp⟩

theorem splitTokens_skip_malformed (g1 g2 : List Token) (m : Token)
    (hm : truthyStr m.text = false) :
    SonioxUi.splitTokens (g1 ++ [m] ++ g2) = SonioxUi.splitTokens (g1 ++ g2) := by
  simp [splitTokens_eq_filters, List.filter_append, List.filter_cons, hm]

/-- C5: a single malformed token (missing its required `text` field)
inside an otherwise valid batch is skipped: the batch is processed exactly
as the same batch without that token, the remaining tokens are handled
normally, and the iteration neither raises nor stops the session. -/
theorem C5_malformed_token_skipped (s : SonioxUi.Session) (g1 g2 : List Token) (m : Token)
    (em : Option String) (fin : Bool)
    (hm : m.text = none)
    (hs : ∀ t ∈ s.final_tokens, (t.text).isSome = true) :
    SonioxUi.processBatch s
        { error_code := none, error_message := em, tokens := g1 ++ [m] ++ g2, finished := fin } =
      SonioxUi.processBatch s
        { error_code := none, error_message := em, tokens := g1 ++ g2, finished := fin } ∧
    ∃ s1 ns, SonioxUi.processBatch s
        { error_code := none, error_message := em, tokens := g1 ++ [m] ++ g2, finished := fin } =
        (s1, ns, SonioxUi.BatchOutcome.ok fin) := by
  have hsplit := splitTokens_skip_malformed g1 g2 m (by rw [hm]; rfl)
  constructor
  · simp only [SonioxUi.processBatch, SonioxUi.finalsOf, SonioxUi.nonFinalsOf, hsplit]
  · obtain ⟨txt, _, hpb⟩ := processBatch_ui_ok s
      { error_code := none, error_message := em, tokens := g1 ++ [m] ++ g2, finished := fin } rfl hs
    exact ⟨_, _, hpb⟩

/-- C5 witness: a batch `[good final, malformed, good interim]` processes
exactly like `[good final, good interim]`, with a normal non-raising
outcome. -/
theorem C5_malformed_token_skipped_witness :
    SonioxUi.processBatch SonioxUi.initSession
        { error_code := none, error_message := none,
          tokens := [{ text := some "ok1", is_final := true, speaker := none, language := none, translation_status := none }] ++
            [{ text := none, is_final := false, speaker := none, language := none, translation_status := none }] ++
            [{ text := some "ok2", is_final := false, speaker := none, language := none, translation_status := none }],
          finished := false } =
      SonioxUi.processBatch SonioxUi.initSession
        { error_code := none, error_message := none,
          tokens := [{ text := some "ok1", is_final := true, speaker := none, language := none, translation_status := none }] ++
            [{ text := some "ok2", is_final := false, speaker := none, language := none, translation_status := none }],
          finished := false } ∧
    ∃ s1 ns, SonioxUi.processBatch SonioxUi.initSession
        { error_code := none, error_message := none,
          tokens := [{ text := some "ok1", is_final := true, speaker := none, language := none, translation_status := none }] ++
            [{ text := none, is_final := false, speaker := none, language := none, translation_status := none }] ++
            [{ text := some "ok2", is_final := false, speaker := none, language := none, translation_status := none }],
          finished := false } =
        (s1, ns, SonioxUi.BatchOutcome.ok false) :=
  C5_malformed_token_skipped SonioxUi.initSession
    [{ text := some "ok1", is_final := true, speaker := none, language := none, translation_status := none }]
    [{ text := some "ok2", is_final := false, speaker := none, language := none, translation_status := none }]
    { text := none, is_final := false, speaker := none, language := none, translation_status := none }
    none false rfl (by decide)

/-- C6: `stop` is safe whenever the session is not running — called before
`start` (or on any not-running state) it returns the defined
"No active session" status, changes nothing and releases nothing; and
after any `stop`, a second `stop` returns that same not-running status and
performs no join/close effect at all, so already-released handles are
never re-released. -/
theorem C6_stop_idempotent_safe (s : SonioxUi.Session) :
    (s.is_running = false → SonioxUi.stop s = ("No active session", s, [])) ∧
    SonioxUi.stop (SonioxUi.stop s).2.1 = ("No active session", (SonioxUi.stop s).2.1, []) := by
  constructor
  · intro h
    simp [SonioxUi.stop, h]
  · cases h : s.is_running with
    | false => simp [SonioxUi.stop, h]
    | true =>
        cases hws : s.ws with
        | false => simp [SonioxUi.stop, h, hws]
        | true => simp [SonioxUi.stop, h, hws]

/-- C6 witness: `stop` on the freshly constructed session (before any
`start`) returns the not-running status with no effects; and calling
`stop` twice on a running session leaves the second call a no-op with an
empty effect list. -/
theorem C6_stop_idempotent_safe_witness :
    SonioxUi.stop SonioxUi.initSession = ("No active session", SonioxUi.initSession, []) ∧
    SonioxUi.stop
        (SonioxUi.stop
          { stop_event := false, is_running := true, ws := true, audio_thread := true,
            receive_thread := true, final_tokens := [], current_transcript := "x" }).2.1 =
      ("No active session",
        (SonioxUi.stop
          { stop_event := false, is_running := true, ws := true, audio_thread := true,
            receive_thread := true, final_tokens := [], current_transcript := "x" }).2.1, []) :=
  ⟨(C6_stop_idempotent_safe SonioxUi.initSession).1 rfl,
   (C6_stop_idempotent_safe
     { stop_event := false, is_running := true, ws := true, audio_thread := true,
       receive_thread := true, final_tokens := [], current_transcript := "x" }).2⟩

/-- C7 counterexample: a `ConnectionError` raised mid-receive is caught
inside the receive task and an error description is appended to the
transcript, but NO failed/not-running status is recorded: `is_running`
stays `true` (the class has no other status field), contradicting "status
becomes Failed".  Moreover, when the stop signal is already set the
exception handler records nothing at all — the state is returned
unchanged, with an empty error description. -/
theorem C7_counterexample_no_failed_status :
    (SonioxUi.receive_messages
        { stop_event := false, is_running := true, ws := true, audio_thread := true,
          receive_thread := true, final_tokens := [], current_transcript := "T" }
        [SonioxUi.RecvEvent.exn "ConnectionClosedError: connection lost"]).is_running = true ∧
    (SonioxUi.receive_messages
        { stop_event := false, is_running := true, ws := true, audio_thread := true,
          receive_thread := true, final_tokens := [], current_transcript := "T" }
        [SonioxUi.RecvEvent.exn "ConnectionClosedError: connection lost"]).current_transcript =
      "T\n\nError: ConnectionClosedError: connection lost" ∧
    SonioxUi.receive_messages
        { stop_event := true, is_running := true, ws := true, audio_thread := true,
          receive_thread := true, final_tokens := [], current_transcript := "T" }
        [SonioxUi.RecvEvent.exn "ConnectionClosedError: connection lost"] =
      { stop_event := true, is_running := true, ws := true, audio_thread := true,
        receive_thread := true, final_tokens := [], current_transcript := "T" } :=
  ⟨rfl, rfl, rfl⟩

/-- C7 amended: an exception raised mid-receive is caught inside the
receive task and never propagates (the embedded `receive_messages` is
total and returns a state); when the stop signal is clear, a non-empty
error description is appended to the transcript snapshot — but nothing
else changes: no Failed status exists, and `is_running` in particular is
left untouched. -/
theorem C7_amended_error_recorded (s : SonioxUi.Session) (d : String)
    (es : List SonioxUi.RecvEvent) (h : s.stop_event = false) :
    SonioxUi.receive_messages s (SonioxUi.RecvEvent.exn d :: es) =
      { s with current_transcript := s.current_transcript ++ "\n\nError: " ++ d } := by
  simp [SonioxUi.receive_messages, h]

/-- C7 amended witness: the concrete mid-receive connection error from the
counterexample state, with further pending events ignored. -/
theorem C7_amended_error_recorded_witness :
    SonioxUi.receive_messages
        { stop_event := false, is_running := true, ws := true, audio_thread := true,
          receive_thread := true, final_tokens := [], current_transcript := "T" }
        [SonioxUi.RecvEvent.exn "ConnectionClosedError: connection lost"] =
      { stop_event := false, is_running := true, ws := true, audio_thread := true,
        receive_thread := true, final_tokens := [],
        current_transcript := "T" ++ "\n\nError: " ++ "ConnectionClosedError: connection lost" } :=
  C7_amended_error_recorded
    { stop_event := false, is_running := true, ws := true, audio_thread := true,
      receive_thread := true, final_tokens := [], current_transcript := "T" }
    "ConnectionClosedError: connection lost" [] rfl

/-- C10: `map_languages` tokenizes the input into word and punctuation
tokens, substitutes each word by its Hindi mapping first, else its
Gujarati mapping (looked up by the lower-cased word), leaves everything
else unchanged, and joins ALL tokens with single spaces — so the original
whitespace and punctuation adjacency is lost even with no dictionary hit:
with empty dictionaries every token passes through unchanged yet
`"hello,world"` becomes `"hello , world"`, a word present in both
dictionaries resolves to the Hindi value, and a mixed sentence against the
bundled sample dictionaries maps word by word. -/
theorem C10_map_languages_characterization :
    (∀ text : String, SonioxMultilingual.map_languages text [] [] =
        " ".intercalate (SonioxMultilingual.findTokens text.data)) ∧
    SonioxMultilingual.map_languages "hello,world" [] [] = "hello , world" ∧
    ("hello , world" : String) ≠ "hello,world" ∧
    SonioxMultilingual.map_languages "kem" [("kem", "H")] [("kem", "G")] = "H" ∧
    SonioxMultilingual.map_languages "Kem cho? main theek"
      SonioxMultilingual.hindiSample SonioxMultilingual.gujaratiSample = "કેમ છો ? मैं theek" := by
  refine ⟨?_, rfl, by decide, by decide, by decide⟩
  intro text
  have hid : SonioxMultilingual.substWord [] [] = fun w => w := by
    funext w
    simp [SonioxMultilingual.substWord, List.lookup]
  simp [SonioxMultilingual.map_languages, hid]

namespace Gcloud

theorem applySec_nil (m : Mem) : applySec m [] = m := rfl

theorem boundary_zero (init : Mem) (secs : List (List Wr)) : boundary init secs 0 = init := rfl

theorem boundary_cons (init : Mem) (s0 : List Wr) (ss : List (List Wr)) (j : Nat) :
    boundary init (s0 :: ss) (j + 1) = boundary (applySec init s0) ss j := rfl

theorem boundary_succ : ∀ (k : Nat) (secs : List (List Wr)) (init : Mem)
    {sec : List Wr} {rest : List (List Wr)},
    secs.drop k = sec :: rest →
      boundary init secs (k + 1) = applySec (boundary init secs k) sec := by
  intro k
  induction k with
  | zero =>
      intro secs init sec rest h
      rw [List.drop_zero] at h
      subst h
      rfl
  | succ k ih =>
      intro secs init sec rest h
      cases secs with
      | nil => simp at h
      | cons s0 ss =>
          have h1 : ss.drop k = sec :: rest := h
          rw [boundary_cons, boundary_cons]
          exact ih ss (applySec init s0) h1

theorem drop_cons_lt {secs : List (List Wr)} {k : Nat} {sec : List Wr} {rest : List (List Wr)}
    (h : secs.drop k = sec :: rest) : k < secs.length := by
  have h1 := congrArg List.length h
  simp [List.length_drop] at h1
  omega

theorem drop_succ_of_drop_cons {secs : List (List Wr)} {k : Nat} {sec : List Wr}
    {rest : List (List Wr)} (h : secs.drop k = sec :: rest) : secs.drop (k + 1) = rest := by
  rw [← List.tail_drop, h]
  rfl

theorem wstep_inv {init : Mem} {secs : List (List Wr)} {c : Cfg}
    (h : Inv init secs c) : Inv init secs (wstep c) := by
  obtain ⟨k, hk, hw, hr⟩ := h
  obtain ⟨mem, lock, wprog, wcur, rphase, log⟩ := c
  simp only [Inv, wstep] at *
  rcases hw with ⟨hwc, hwp, hmem, hlock⟩ | ⟨pre, ws, hwc, hdrop, hmem, hlock⟩
  · -- writer between sections
    subst hwc hwp hmem
    rcases hd : secs.drop k with _ | ⟨sec, rest⟩
    · exact ⟨k, hk, Or.inl ⟨rfl, hd.symm, rfl, hlock⟩, hr⟩
    · by_cases hl : lock = none
      · subst hl
        refine ⟨k, hk, Or.inr ⟨[], sec, rfl, ?_, rfl, rfl⟩, ?_⟩
        · rw [hd]; rfl
        · cases rphase <;> simp only [RInv] at hr ⊢
          · exact ⟨hr.1, by simp⟩
          · exact absurd hr.1 (by simp)
          · exact absurd hr.1 (by simp)
          · exact absurd hr.1 (by simp)
          · exact ⟨by simp, hr.2⟩
      · simp only [if_neg hl]
        exact ⟨k, hk, Or.inl ⟨rfl, hd.symm, rfl, hlock⟩, hr⟩
  · -- writer mid-section
    subst hwc hmem hlock
    cases ws with
    | cons w ws1 =>
        refine ⟨k, hk, Or.inr ⟨pre ++ [w], ws1, rfl, ?_, ?_, rfl⟩, ?_⟩
        · rw [hdrop]
          simp [List.append_assoc]
        · simp [applySec, List.foldl_append]
        · cases rphase <;> simp only [RInv] at hr ⊢
          · exact ⟨hr.1, by simp⟩
          · exact absurd hr.1 (by simp)
          · exact absurd hr.1 (by simp)
          · exact absurd hr.1 (by simp)
          · exact ⟨by simp, hr.2⟩
    | nil =>
        have hlen : k + 1 ≤ secs.length := drop_cons_lt hdrop
        have hbnd : boundary init secs (k + 1) =
            applySec (boundary init secs k) (pre ++ []) := boundary_succ k secs init hdrop
        refine ⟨k + 1, hlen, Or.inl ⟨rfl, (drop_succ_of_drop_cons hdrop).symm, ?_, by simp⟩, ?_⟩
        · rw [hbnd]; simp
        · cases rphase <;> simp only [RInv] at hr ⊢
          · exact ⟨hr.1, by simp⟩
          · exact absurd hr.1 (by simp)
          · exact absurd hr.1 (by simp)
          · exact absurd hr.1 (by simp)
          · exact ⟨by simp, hr.2⟩

theorem rstep_inv {init : Mem} {secs : List (List Wr)} {c : Cfg}
    (h : Inv init secs c) : Inv init secs (rstep c) := by
  obtain ⟨k, hk, hw, hr⟩ := h
  obtain ⟨mem, lock, wprog, wcur, rphase, log⟩ := c
  simp only [Inv, rstep] at *
  cases rphase with
  | idle =>
      simp only [RInv] at hr
      obtain ⟨hlog, hlockr⟩ := hr
      subst hlog
      by_cases hl : lock = none
      · subst hl
        rcases hw with ⟨hwc, hwp, hmem, hlockw⟩ | ⟨pre, ws, hwc, hdrop, hmem, hlockw⟩
        · subst hwc hwp hmem
          exact ⟨k, hk, Or.inl ⟨rfl, rfl, rfl, by simp⟩, ⟨rfl, rfl⟩⟩
        · exact absurd hlockw (by simp)
      · simp only [if_neg hl]
        exact ⟨k, hk, hw, ⟨rfl, hlockr⟩⟩
  | readF =>
      simp only [RInv] at hr
      obtain ⟨hlock, hlog⟩ := hr
      subst hlock hlog
      exact ⟨k, hk, hw, ⟨rfl, by simp⟩⟩
  | readI =>
      simp only [RInv] at hr
      obtain ⟨hlock, hlog⟩ := hr
      subst hlock hlog
      exact ⟨k, hk, hw, ⟨rfl, by simp⟩⟩
  | unlock =>
      simp only [RInv] at hr
      obtain ⟨hlock, hlog⟩ := hr
      subst hlock hlog
      rcases hw with ⟨hwc, hwp, hmem, hlockw⟩ | ⟨pre, ws, hwc, hdrop, hmem, hlockw⟩
      · subst hwc hwp hmem
        refine ⟨k, hk, Or.inl ⟨rfl, rfl, rfl, by simp⟩, ?_⟩
        exact ⟨by simp, ⟨k, hk, rfl⟩⟩
      · exact absurd hlockw (by simp)
  | done =>
      exact ⟨k, hk, hw, hr⟩

theorem inv_init (init : Mem) (secs : List (List Wr)) : Inv init secs (cfg0 init secs) :=
  ⟨0, Nat.zero_le _, Or.inl ⟨rfl, rfl, rfl, by simp [cfg0]⟩, ⟨rfl, by simp [cfg0]⟩⟩

theorem run_inv (init : Mem) (secs : List (List Wr)) :
    ∀ (sched : List Bool) (c : Cfg), Inv init secs c → Inv init secs (run sched c) := by
  intro sched
  induction sched with
  | nil => exact fun c h => h
  | cons side rest ih =>
      intro c h
      have hstep : Inv init secs (if side then wstep c else rstep c) := by
        cases side with
        | true => exact wstep_inv h
        | false => exact rstep_inv h
      exact ih _ hstep

theorem gStep_eq (st : GState) (r : GResult) :
    gStep st r =
      (if r.is_final then
        if 1 < (gLangUpdate st r).language_history.length then
          { gLangUpdate st r with
              full_transcript := (gLangUpdate st r).full_transcript ++
                ("[" ++ get_language_name (currentLangOf r) ++ "] " ++ r.transcript ++ " "),
              interim_transcript := "" }
        else
          { gLangUpdate st r with
              full_transcript := (gLangUpdate st r).full_transcript ++ (r.transcript ++ " "),
              interim_transcript := "" }
      else { gLangUpdate st r with interim_transcript := r.transcript }) := rfl

theorem gLangUpdate_full (st : GState) (r : GResult) :
    (gLangUpdate st r).full_transcript = st.full_transcript := by
  unfold gLangUpdate
  dsimp only
  split <;> rfl

theorem gLangUpdate_interim (st : GState) (r : GResult) :
    (gLangUpdate st r).interim_transcript = st.interim_transcript := by
  unfold gLangUpdate
  dsimp only
  split <;> rfl

theorem applySec_gTransWrites (st : GState) (r : GResult) :
    applySec ⟨st.full_transcript, st.interim_transcript⟩ (gTransWrites (gLangUpdate st r) r) =
      ⟨(gStep st r).full_transcript, (gStep st r).interim_transcript⟩ := by
  rw [gStep_eq]
  unfold gTransWrites
  cases hf : r.is_final with
  | false =>
      simp [applySec, applyW, gLangUpdate_full]
  | true =>
      by_cases hlen : 1 < (gLangUpdate st r).language_history.length
      · simp [hlen, applySec, applyW, gLangUpdate_full]
      · simp [hlen, applySec, applyW, gLangUpdate_full]

theorem lockedSections_foldl : ∀ (rs : List GResult) (st : GState),
    (lockedSections st rs).foldl applySec ⟨st.full_transcript, st.interim_transcript⟩ =
      ⟨(processResponses st rs).full_transcript, (processResponses st rs).interim_transcript⟩ := by
  intro rs
  induction rs with
  | nil => exact fun st => rfl
  | cons r rs ih =>
      intro st
      have h1 := applySec_gTransWrites st r
      calc (lockedSections st (r :: rs)).foldl applySec ⟨st.full_transcript, st.interim_transcript⟩
          = (lockedSections (gStep st r) rs).foldl applySec
              (applySec ⟨st.full_transcript, st.interim_transcript⟩
                (gTransWrites (gLangUpdate st r) r)) := rfl
        _ = (lockedSections (gStep st r) rs).foldl applySec
              ⟨(gStep st r).full_transcript, (gStep st r).interim_transcript⟩ := by rw [h1]
        _ = ⟨(processResponses (gStep st r) rs).full_transcript,
             (processResponses (gStep st r) rs).interim_transcript⟩ := ih (gStep st r)
        _ = ⟨(processResponses st (r :: rs)).full_transcript,
             (processResponses st (r :: rs)).interim_transcript⟩ := rfl

end Gcloud

/-- C8 counterexample: the claim's justification — "all mutation and
reading of TranscriptState happens under a mutual-exclusion lock" — is
false on the cited soniox_ui snapshot path: `get_transcript` reads
`current_transcript` and `receive_messages` mutates `final_tokens` and
`current_transcript` with no lock held (the class has no lock at all). -/
theorem C8_counterexample_unlocked_access :
    ((LockUsage.sonioxGetTranscriptAccesses ++ LockUsage.sonioxReceiveAccesses).all
      (fun a => a.underLock)) = false := by decide

/-- C8 amended: in gcloud's `TranscriptionManager` the receive task's
transcript writes and the snapshot read each hold `self.lock`, and for
EVERY schedule interleaving the receive task's locked critical sections
(the exact sections `_process_responses` performs for a response stream)
with a locked `get_current_transcript`, a completed snapshot equals the
shared pair at some critical-section boundary — never a torn mixture.
The boundary after all sections moreover equals the transcript pair
`_process_responses` itself computes.  (soniox_ui, by contrast, uses no
lock — see the counterexample — its snapshot being a single attribute
read.) -/
theorem C8_amended_no_torn_snapshot (rs : List Gcloud.GResult) (sched : List Bool)
    (hdone : (Gcloud.run sched (Gcloud.cfg0 ⟨"", ""⟩
        (Gcloud.lockedSections Gcloud.initGState rs))).rphase = Gcloud.RPhase.done) :
    (∃ j, j ≤ (Gcloud.lockedSections Gcloud.initGState rs).length ∧
      (Gcloud.run sched (Gcloud.cfg0 ⟨"", ""⟩ (Gcloud.lockedSections Gcloud.initGState rs))).log =
        [(Gcloud.boundary ⟨"", ""⟩ (Gcloud.lockedSections Gcloud.initGState rs) j).full,
         (Gcloud.boundary ⟨"", ""⟩ (Gcloud.lockedSections Gcloud.initGState rs) j).interim]) ∧
    Gcloud.boundary ⟨"", ""⟩ (Gcloud.lockedSections Gcloud.initGState rs)
        (Gcloud.lockedSections Gcloud.initGState rs).length =
      ⟨(Gcloud.processResponses Gcloud.initGState rs).full_transcript,
       (Gcloud.processResponses Gcloud.initGState rs).interim_transcript⟩ ∧
    ((LockUsage.gcloudGetTranscriptAccesses ++ LockUsage.gcloudProcessAccesses).all
      (fun a => a.underLock)) = true := by
  refine ⟨?_, ?_, by decide⟩
  · have hinv := Gcloud.run_inv ⟨"", ""⟩ (Gcloud.lockedSections Gcloud.initGState rs) sched _
      (Gcloud.inv_init ⟨"", ""⟩ (Gcloud.lockedSections Gcloud.initGState rs))
    obtain ⟨k, hk, hw, hr⟩ := hinv
    rw [hdone] at hr
    simp only [Gcloud.RInv] at hr
    exact hr.2
  · have h := Gcloud.lockedSections_foldl rs Gcloud.initGState
    rw [Gcloud.boundary, List.take_length]
    exact h

/-- C8 amended witness: two responses (one final `"hello"`, one interim
`"wor"`) and a schedule that runs the whole first critical section, then
the whole locked snapshot, then the rest: the snapshot is the boundary
pair after section one. -/
theorem C8_amended_no_torn_snapshot_witness :
    (∃ j, j ≤ (Gcloud.lockedSections Gcloud.initGState
        [{ transcript := "hello", language_code := "", is_final := true },
         { transcript := "wor", language_code := "", is_final := false }]).length ∧
      (Gcloud.run [true, true, true, true, false, false, false, false, true, true, true]
        (Gcloud.cfg0 ⟨"", ""⟩ (Gcloud.lockedSections Gcloud.initGState
          [{ transcript := "hello", language_code := "", is_final := true },
           { transcript := "wor", language_code := "", is_final := false }]))).log =
        [(Gcloud.boundary ⟨"", ""⟩ (Gcloud.lockedSections Gcloud.initGState
            [{ transcript := "hello", language_code := "", is_final := true },
             { transcript := "wor", language_code := "", is_final := false }]) j).full,
         (Gcloud.boundary ⟨"", ""⟩ (Gcloud.lockedSections Gcloud.initGState
            [{ transcript := "hello", language_code := "", is_final := true },
             { transcript := "wor", language_code := "", is_final := false }]) j).interim]) ∧
    Gcloud.boundary ⟨"", ""⟩ (Gcloud.lockedSections Gcloud.initGState
        [{ transcript := "hello", language_code := "", is_final := true },
         { transcript := "wor", language_code := "", is_final := false }])
        (Gcloud.lockedSections Gcloud.initGState
          [{ transcript := "hello", language_code := "", is_final := true },
           { transcript := "wor", language_code := "", is_final := false }]).length =
      ⟨(Gcloud.processResponses Gcloud.initGState
          [{ transcript := "hello", language_code := "", is_final := true },
           { transcript := "wor", language_code := "", is_final := false }]).full_transcript,
       (Gcloud.processResponses Gcloud.initGState
          [{ transcript := "hello", language_code := "", is_final := true },
           { transcript := "wor", language_code := "", is_final := false }]).interim_transcript⟩ ∧
    ((LockUsage.gcloudGetTranscriptAccesses ++ LockUsage.gcloudProcessAccesses).all
      (fun a => a.underLock)) = true :=
  C8_amended_no_torn_snapshot
    [{ transcript := "hello", language_code := "", is_final := true },
     { transcript := "wor", language_code := "", is_final := false }]
    [true, true, true, true, false, false, false, false, true, true, true]
    (by decide)
